import Mathlib

/-!
Verification development for the `nfl_sdk` repository (single source file
`nfl_sdk/base.py`).  Python strings are modelled as lists of natural numbers:
the sequence of Unicode code points (for the ASCII data handled here this
coincides with the UTF-8 byte sequence).  Fallible Python code is modelled
with `Except PyErr`; the HTTP transport (the `requests` library) and the
binary parsers (`json.loads` on raw bodies, `pandas.read_parquet`,
`datetime.strptime`) are third-party effects and are passed in as explicit
function parameters, while everything the repository itself does to their
results is translated directly from the source.
-/

/-- A Python string literal as its list of code points (ASCII here). -/
def bstr (s : String) : List Nat :=
  s.toList.map Char.toNat

/-- ASCII decimal digit test, as in `str.isdigit` restricted to ASCII. -/
def isDigitB (b : Nat) : Bool :=
  48 ≤ b && b ≤ 57

/-- ASCII letter test. -/
def isAlphaB (b : Nat) : Bool :=
  (65 ≤ b && b ≤ 90) || (97 ≤ b && b ≤ 122)

/-- Bytes `urllib.parse.quote` leaves unescaped: `ALWAYS_SAFE` is the ASCII
letters, digits and `_.-~` (the `safe=''` default of `urlencode`). -/
def isSafeB (b : Nat) : Bool :=
  isAlphaB b || isDigitB b || b == 95 || b == 46 || b == 45 || b == 126

/-- Upper-case hex digit character for a value below 16, as `quote` emits. -/
def hexDigitB (n : Nat) : Nat :=
  if n < 10 then 48 + n else 55 + n

/-- Hex digit test (both cases), as accepted by `unquote`. -/
def isHexB (b : Nat) : Bool :=
  isDigitB b || (65 ≤ b && b ≤ 70) || (97 ≤ b && b ≤ 102)

/-- Value of a hex digit character. -/
def hexValB (b : Nat) : Nat :=
  if b ≤ 57 then b - 48 else if b ≤ 70 then b - 55 else b - 87

/-- `urllib.parse.quote_plus` on a single byte: safe bytes pass through,
space becomes `+` (43), anything else becomes `%XX` with upper-case hex. -/
def quoteByte (b : Nat) : List Nat :=
  if isSafeB b then [b]
  else if b = 32 then [43]
  else [37, hexDigitB (b / 16), hexDigitB (b % 16)]

/-- `urllib.parse.quote_plus` with `safe=''`, byte by byte. -/
def pyQuotePlus (s : List Nat) : List Nat :=
  (s.map quoteByte).flatten

/-- `urllib.parse.urlencode` on a mapping: `quote_plus(k) + '=' + quote_plus(v)`
for each item, joined by `&` (38); `=` is 61. -/
def pyUrlencode (q : List (List Nat × List Nat)) : List Nat :=
  List.intercalate [38] (q.map fun kv => pyQuotePlus kv.1 ++ 61 :: pyQuotePlus kv.2)

/-- `urllib.parse.unquote_plus`: `+` becomes space, `%XX` with two hex digits
becomes the byte `XX`, a malformed `%` is kept literally. -/
def pyUnquotePlus : List Nat → List Nat
  | [] => []
  | 43 :: rest => 32 :: pyUnquotePlus rest
  | 37 :: h1 :: h2 :: rest2 =>
    if isHexB h1 && isHexB h2 then
      (hexValB h1 * 16 + hexValB h2) :: pyUnquotePlus rest2
    else 37 :: pyUnquotePlus (h1 :: h2 :: rest2)
  | b :: rest => b :: pyUnquotePlus rest

/-- Split a byte string on every occurrence of the byte `c`
(Python `str.split(c)` semantics: always at least one piece). -/
def splitOnByte (c : Nat) : List Nat → List (List Nat)
  | [] => [[]]
  | b :: rest =>
    if b = c then [] :: splitOnByte c rest
    else
      match splitOnByte c rest with
      | [] => [[b]]
      | p :: ps => (b :: p) :: ps

/-- Split a byte string at the first occurrence of `c`; if `c` does not
occur the whole string is the first part. -/
def splitFirst (c : Nat) : List Nat → List Nat × List Nat
  | [] => ([], [])
  | b :: rest =>
    if b = c then ([], rest)
    else
      let p := splitFirst c rest
      (b :: p.1, p.2)

/-- URL-decode a query string back into its key/value pairs: split on `&`,
split each piece at the first `=`, and `unquote_plus` both halves. -/
def decodeQuery (q : List Nat) : List (List Nat × List Nat) :=
  if q = [] then []
  else (splitOnByte 38 q).map fun piece =>
    (pyUnquotePlus (splitFirst 61 piece).1, pyUnquotePlus (splitFirst 61 piece).2)

/-- First step of CPython's `urlunsplit`: when a netloc is present or the
path starts with `//`, prefix the path with `/` if needed and prepend
`//netloc` (`/` is 47). -/
def pyAddNetloc (netloc url0 : List Nat) : List Nat :=
  if netloc ≠ [] ∨ url0.take 2 = [47, 47] then
    47 :: 47 :: (netloc ++ (if url0 ≠ [] ∧ url0.take 1 ≠ [47] then 47 :: url0 else url0))
  else url0

/-- Second step of `urlunsplit`: prepend `scheme:` when the scheme is
non-empty (`:` is 58). -/
def pyAddScheme (scheme url : List Nat) : List Nat :=
  if scheme ≠ [] then scheme ++ 58 :: url else url

/-- Third step of `urlunsplit`: append `?query` when non-empty (`?` is 63). -/
def pyAddQuery (url query : List Nat) : List Nat :=
  if query ≠ [] then url ++ 63 :: query else url

/-- Last step of `urlunsplit`: append `#fragment` when non-empty (`#` is 35). -/
def pyAddFrag (url fragment : List Nat) : List Nat :=
  if fragment ≠ [] then url ++ 35 :: fragment else url

/-- `urllib.parse.urlunsplit`, mirroring the CPython source: the four
sequential updates of `url` above. -/
def pyUrlunsplit (scheme netloc url0 query fragment : List Nat) : List Nat :=
  pyAddFrag (pyAddQuery (pyAddScheme scheme (pyAddNetloc netloc url0)) query) fragment

/-- `urllib.parse.urlunparse`: append `;params` to the path when params is
non-empty (`;` is 59), then `urlunsplit`. -/
def pyUrlunparse (scheme netloc url0 params query fragment : List Nat) : List Nat :=
  pyUrlunsplit scheme netloc (if params ≠ [] then url0 ++ 59 :: params else url0) query fragment

/-- The `path` argument of `generate_url` (`Union[str, List[str], None]`)
rendered as the source renders it: a list is joined with `/`, an absent
value becomes the empty string via `str(value or "")`. -/
def renderPath : Option (Sum (List Nat) (List (List Nat))) → List Nat
  | none => []
  | some (.inl s) => s
  | some (.inr segs) => List.intercalate [47] segs

/-- The `query` argument of `generate_url` (`Union[str, dict, None]`)
rendered as the source renders it: a dict is `urlencode`d, an absent value
becomes the empty string via `str(value or "")`. -/
def renderQuery : Option (Sum (List Nat) (List (List Nat × List Nat))) → List Nat
  | none => []
  | some (.inl s) => s
  | some (.inr m) => pyUrlencode m

/-- `str(value or "")` on an optional string: `None` (and `""`) render as
the empty string, any other string renders as itself. -/
def orEmptyB : Option (List Nat) → List Nat
  | none => []
  | some s => s

/-- `generate_url` from `nfl_sdk/base.py`: join a list path with `/`,
`urlencode` a dict query, replace absent components by the empty string
(`str(value or "")`), and `urlunparse` with `params=None`. -/
def generate_url (netloc : List Nat) (scheme : Option (List Nat))
    (path : Option (Sum (List Nat) (List (List Nat))))
    (query : Option (Sum (List Nat) (List (List Nat × List Nat))))
    (fragment : Option (List Nat)) : List Nat :=
  pyUrlunparse (orEmptyB scheme) netloc (renderPath path) [] (renderQuery query)
    (orEmptyB fragment)

/-- `t` occurs as a contiguous substring of `l` (the Python `in` operator on
strings). -/
def SubStr (t l : List Nat) : Prop :=
  ∃ p s, l = p ++ t ++ s

/-- Boolean test: `t` is a leading segment of `l`. -/
def leadEq : List Nat → List Nat → Bool
  | [], _ => true
  | _ :: _, [] => false
  | a :: t, b :: l => a == b && leadEq t l

/-- Boolean substring test (executable form of `SubStr`). -/
def hasSub (t : List Nat) : List Nat → Bool
  | [] => t.isEmpty
  | b :: rest => leadEq t (b :: rest) || hasSub t rest

/-- Python exception classes that the modelled code can raise. -/
inductive PyErr : Type
  | valueError
  | assertionError
  | keyError
  | jsonDecodeError
  deriving DecidableEq, Repr

/-- The request descriptor handed to `requests.request` by `make_call`:
method, final URL, and the pass-through arguments `params`, `data`,
`headers` and the extra `**kwargs`. -/
structure RequestD where
  method : List Nat
  url : List Nat
  params : Option (List (List Nat × List Nat))
  data : Option (Sum (List (List Nat × List Nat)) (List (List Nat)))
  headers : Option (List (List Nat × List Nat))
  kwargs : List (List Nat × List Nat)
  deriving DecidableEq, Repr

/-- `make_call` from `nfl_sdk/base.py`: raise `ValueError` when both `url`
and `netloc` are `None`; use `url` verbatim when given; otherwise build the
URL via `generate_url(scheme=scheme, netloc=netloc, path=path, query=query,
fragment=fragment)`.  The returned descriptor is what is passed on to
`requests.request`. -/
def make_call (method : List Nat) (url netloc : Option (List Nat))
    (params : Option (List (List Nat × List Nat)))
    (data : Option (Sum (List (List Nat × List Nat)) (List (List Nat))))
    (headers : Option (List (List Nat × List Nat)))
    (scheme : Option (List Nat))
    (path : Option (Sum (List Nat) (List (List Nat))))
    (query : Option (Sum (List Nat) (List (List Nat × List Nat))))
    (fragment : Option (List Nat))
    (kwargs : List (List Nat × List Nat)) : Except PyErr RequestD :=
  match url, netloc with
  | none, none => .error .valueError
  | some u, _ => .ok ⟨method, u, params, data, headers, kwargs⟩
  | none, some n =>
    .ok ⟨method, generate_url n scheme path query fragment, params, data, headers, kwargs⟩

/-- An HTTP response: status code plus a body of some type `β` (the raw
bytes; the third-party parsers applied to it are abstracted as function
parameters below). -/
structure HttpResponse (β : Type) where
  status_code : Nat
  content : β

/-- The `{"Accept": "application/vnd.github.v3+json"}` header dict. -/
def ghHeaders : List (List Nat × List Nat) :=
  [(bstr ("Accept"), bstr ("application/vnd.github.v3+json"))]

/-- The request `introduce_repository` issues (the `make_call` result for
`GET api.github.com /repos/guga31bb/nflfastR-data/branches/{branch}`). -/
def introRequestD (branch : List Nat) : RequestD :=
  ⟨bstr ("get"),
   generate_url (bstr ("api.github.com")) (some (bstr ("https")))
     (some (.inr [bstr ("repos"), bstr ("guga31bb"), bstr ("nflfastR-data"),
       bstr ("branches"), branch])) none none,
   none, none, some ghHeaders, []⟩

/-- The request `get_file_path_array` issues (the `make_call` result for
`GET api.github.com /repos/guga31bb/nflfastR-data/contents/data?ref=...`,
where `ref` travels in `params`). -/
def listRequestD (branch : List Nat) : RequestD :=
  ⟨bstr ("get"),
   generate_url (bstr ("api.github.com")) (some (bstr ("https")))
     (some (.inr [bstr ("repos"), bstr ("guga31bb"), bstr ("nflfastR-data"),
       bstr ("contents"), bstr ("data")])) none none,
   some [(bstr ("ref"), branch)], none, some ghHeaders, []⟩

/-- `introduce_repository` from `nfl_sdk/base.py`.  `transport` stands for
`requests.request` (returns the response for a request descriptor);
`extractDate` stands for `json.loads` followed by the
`["commit"]["commit"]["author"]["date"]` accesses and
`datetime.strptime` — a third-party chain that either yields a timestamp
or raises.  The function asserts `status_code == 200` and then runs that
chain; its own result is `None` (the two `logger.info` calls are pure
side effects). -/
def introduce_repository {β δ : Type} (transport : RequestD → HttpResponse β)
    (extractDate : β → Except PyErr δ) (branch : List Nat) : Except PyErr Unit :=
  (make_call (bstr ("get")) none (some (bstr ("api.github.com"))) none none
      (some ghHeaders) (some (bstr ("https")))
      (some (.inr [bstr ("repos"), bstr ("guga31bb"), bstr ("nflfastR-data"),
        bstr ("branches"), branch])) none none []).bind fun req =>
    let resp := transport req
    if resp.status_code = 200 then
      (extractDate resp.content).map fun _ => ()
    else .error .assertionError

/-- One entry of the GitHub Contents directory listing: the fields `name`
and `download_url` that the code reads. -/
structure FileEntry where
  name : List Nat
  download_url : List Nat
  deriving DecidableEq, Repr

/-- Normalisation at the top of the filter loop: a single extension string
becomes a one-element list (`if isinstance(file_extensions, str): ...`). -/
def normExtList : Sum (List Nat) (List (List Nat)) → List (List Nat)
  | .inl s => [s]
  | .inr l => l

/-- The components of a POSIX path after dropping empty and `"."` pieces,
as `pathlib` parses them (`.` is 46, `/` is 47). -/
def pathComponents (s : List Nat) : List (List Nat) :=
  (splitOnByte 47 s).filter fun c => !c.isEmpty && c != [46]

/-- `PurePosixPath(s).name` for the relative, `..`-free paths the GitHub
listing can contain: the last component, or empty when there is none. -/
def pyPathName (s : List Nat) : List Nat :=
  ((pathComponents s).getLast?).getD []

/-- `str(PurePosixPath(s))` for the same class of paths: the components
re-joined with `/` (with a leading `/` for absolute paths), and `"."` for
an empty result. -/
def pyPathStr (s : List Nat) : List Nat :=
  let core := (if s.take 1 = [47] then [47] else []) ++ List.intercalate [47] (pathComponents s)
  if core = [] then [46] else core

/-- `PurePosixPath(...).suffixes` as in CPython: empty when the name ends
with a dot; otherwise strip leading dots, split the rest on `.`, drop the
first piece and put a dot back in front of each remaining piece. -/
def pySuffixes (name : List Nat) : List (List Nat) :=
  if name.getLast? = some 46 then []
  else
    match splitOnByte 46 (name.dropWhile fun b => b == 46) with
    | [] => []
    | _ :: rest => rest.map fun s => 46 :: s

/-- One element of the `years` argument: `Union[int, str]`. -/
abbrev YearV : Type := Sum Int (List Nat)

/-- `str(year)`: decimal form of an int, a string unchanged. -/
def yearStr : YearV → List Nat
  | .inl n => bstr (toString n)
  | .inr s => s

/-- Whitespace for Python's `int(str)` stripping (ASCII range). -/
def isSpaceB (b : Nat) : Bool :=
  b == 32 || (9 ≤ b && b ≤ 13) || (28 ≤ b && b ≤ 31)

/-- `str.strip()` restricted to ASCII whitespace. -/
def stripB (s : List Nat) : List Nat :=
  ((s.dropWhile isSpaceB).reverse.dropWhile isSpaceB).reverse

/-- No two adjacent underscores (95). -/
def noAdjU : List Nat → Bool
  | b :: c :: rest => !(b == 95 && c == 95) && noAdjU (c :: rest)
  | _ => true

/-- A valid digit group for Python `int()`: non-empty, all digits or
underscores, first and last are digits, and underscores never adjacent
(PEP 515: underscores only between digits). -/
def pyIntDigits (s : List Nat) : Bool :=
  !s.isEmpty && s.all (fun b => isDigitB b || b == 95) &&
    isDigitB (s.headD 0) && isDigitB (s.getLastD 0) && noAdjU s

/-- Decimal value of a digit group, skipping underscores. -/
def digitsToNat (s : List Nat) : Nat :=
  s.foldl (fun acc b => if b == 95 then acc else acc * 10 + (b - 48)) 0

/-- Python `int(s)` on an ASCII string: strip whitespace, optional sign,
then a valid digit group; `None` models the `ValueError`. -/
def pyIntOfStr (s : List Nat) : Option Int :=
  match stripB s with
  | 43 :: r => if pyIntDigits r then some (Int.ofNat (digitsToNat r)) else none
  | 45 :: r => if pyIntDigits r then some (-(Int.ofNat (digitsToNat r))) else none
  | r => if pyIntDigits r then some (Int.ofNat (digitsToNat r)) else none

/-- `int(year)` for `Union[int, str]` elements. -/
def yearInt : YearV → Option Int
  | .inl n => some n
  | .inr s => pyIntOfStr s

/-- The list comprehension `[int(year) for year in years]`: every element
converted with `int(...)`, `None` when any conversion raises. -/
def pyIntList : List YearV → Option (List Int)
  | [] => some []
  | y :: ys =>
    match yearInt y, pyIntList ys with
    | some v, some l => some (v :: l)
    | _, _ => none

/-- The filter condition of the loop in `get_file_path_array`:
`file_path.suffixes == file_extensions and year_match is True` where
`year_match = any(str(year) in str(file_path) for year in years)`. -/
def entryMatches (exts : List (List Nat)) (years : List YearV) (e : FileEntry) : Bool :=
  (pySuffixes (pyPathName e.name) == exts) &&
    years.any fun y => hasSub (yearStr y) (pyPathStr e.name)

/-- The part of `get_file_path_array` after the status assertion and the
`json.loads` call: normalise the extension filter, filter the listing,
then evaluate the `min`/`max` logging expression (which converts every
year with `int(...)` and fails with `ValueError` on a conversion failure
or an empty `years`), and finally return the matched download URLs. -/
def listBody (entries : List FileEntry) (years : List YearV)
    (file_extensions : Sum (List Nat) (List (List Nat))) : Except PyErr (List (List Nat)) :=
  match pyIntList years with
  | none => .error .valueError
  | some l =>
    if l = [] then .error .valueError
    else .ok ((entries.filter (entryMatches (normExtList file_extensions) years)).map
      FileEntry.download_url)

/-- `get_file_path_array` from `nfl_sdk/base.py`.  `transport` stands for
`requests.request`; `loadsListing` stands for `json.loads` plus the
`name`/`download_url` field reads on the decoded array. -/
def get_file_path_array {β : Type} (transport : RequestD → HttpResponse β)
    (loadsListing : β → Except PyErr (List FileEntry)) (years : List YearV)
    (branch : List Nat) (file_extensions : Sum (List Nat) (List (List Nat))) :
    Except PyErr (List (List Nat)) :=
  (make_call (bstr ("get")) none (some (bstr ("api.github.com")))
      (some [(bstr ("ref"), branch)]) none (some ghHeaders) (some (bstr ("https")))
      (some (.inr [bstr ("repos"), bstr ("guga31bb"), bstr ("nflfastR-data"),
        bstr ("contents"), bstr ("data")])) none none []).bind fun req =>
    let resp := transport req
    if resp.status_code = 200 then
      (loadsListing resp.content).bind fun entries => listBody entries years file_extensions
    else .error .assertionError

/-- `pandas.concat(list_of_df, ignore_index=True)`: raises `ValueError`
("No objects to concatenate") on an empty list, otherwise stacks the rows
in input order and replaces the index by a fresh `RangeIndex`.  A frame is
modelled as its list of (index, row) pairs. -/
def pdConcatIgnoreIndex {α : Type} (dfs : List (List (Nat × α))) :
    Except PyErr (List (Nat × α)) :=
  match dfs with
  | [] => .error .valueError
  | _ :: _ => .ok (List.enum ((dfs.map fun d => d.map Prod.snd).flatten))

/-- `prepare_cross_year_data` from `nfl_sdk/base.py`: load every file with
`read_parquet` (passed in, standing for the pandas parquet reader), in
input order, then concatenate with `ignore_index=True`. -/
def prepare_cross_year_data {α : Type} (read_parquet : List Nat → List (Nat × α))
    (file_paths : List (List Nat)) : Except PyErr (List (Nat × α)) :=
  pdConcatIgnoreIndex (file_paths.map read_parquet)

/-- A GitHub listing entry name is a plain non-empty filename: no `/`, not
`.` or `..`.  On such names `pathlib` is the identity (`Path(n).name = n`,
`str(Path(n)) = n`). -/
def validName (n : List Nat) : Prop :=
  n ≠ [] ∧ 47 ∉ n ∧ n ≠ [46] ∧ n ≠ [46, 46]

instance (n : List Nat) : Decidable (validName n) := by
  unfold validName
  infer_instance

/-- The byte string `"None"`. -/
def noneStr : List Nat := bstr ("None")

/-- A constant-status transport used to instantiate the theorems below on
concrete inputs. -/
def demoTransport (code : Nat) : RequestD → HttpResponse Unit :=
  fun _ => ⟨code, ()⟩

/-- A body parser returning a fixed listing, for concrete instantiations. -/
def demoLoads (entries : List FileEntry) : Unit → Except PyErr (List FileEntry) :=
  fun _ => .ok entries

/-- A date-extraction chain that always succeeds, for concrete
instantiations. -/
def demoExtract : Unit → Except PyErr Nat :=
  fun _ => .ok 0

/-- A concrete directory listing shaped like the nflfastR data directory. -/
def demoListing : List FileEntry :=
  [⟨bstr ("pbp_2019.parquet"), bstr ("https://raw.test/pbp_2019.parquet")⟩,
   ⟨bstr ("pbp_2020.parquet"), bstr ("https://raw.test/pbp_2020.parquet")⟩,
   ⟨bstr ("readme_2020.md"), bstr ("https://raw.test/readme_2020.md")⟩,
   ⟨bstr ("data_2020.csv.gz"), bstr ("https://raw.test/data_2020.csv.gz")⟩,
   ⟨bstr ("play_by_play_2019.csv"), bstr ("https://raw.test/play_by_play_2019.csv")⟩]

theorem leadEq_iff (t : List Nat) : ∀ l : List Nat, leadEq t l = true ↔ ∃ s, l = t ++ s := by
  induction t with
  | nil => intro l; simp [leadEq]
  | cons a t ih =>
    intro l
    cases l with
    | nil => simp [leadEq]
    | cons b l' =>
      simp only [leadEq, Bool.and_eq_true, beq_iff_eq, List.cons_append]
      constructor
      · rintro ⟨rfl, h⟩
        obtain ⟨s, rfl⟩ := (ih l').mp h
        exact ⟨s, rfl⟩
      · rintro ⟨s, hs⟩
        injection hs with h1 h2
        exact ⟨h1.symm, (ih l').mpr ⟨s, h2⟩⟩

theorem hasSub_iff (t : List Nat) : ∀ l : List Nat, hasSub t l = true ↔ SubStr t l := by
  intro l
  induction l with
  | nil =>
    cases t with
    | nil =>
      constructor
      · intro _; exact ⟨[], [], rfl⟩
      · intro _; rfl
    | cons a t' =>
      constructor
      · intro h; simp [hasSub, List.isEmpty] at h
      · rintro ⟨p, s, hp⟩
        have := hp.symm
        simp [List.append_eq_nil] at this
  | cons b l' ih =>
    simp only [hasSub, Bool.or_eq_true, leadEq_iff, ih]
    constructor
    · rintro (⟨s, hs⟩ | ⟨p, s, rfl⟩)
      · exact ⟨[], s, by simpa using hs⟩
      · exact ⟨b :: p, s, rfl⟩
    · rintro ⟨p, s, h⟩
      cases p with
      | nil => exact Or.inl ⟨s, by simpa using h⟩
      | cons q p' =>
        right
        simp only [List.cons_append] at h
        injection h with h1 h2
        exact ⟨p', s, h2⟩

theorem sub_cons (c : Nat) {t s : List Nat} (h : SubStr t s) : SubStr t (c :: s) := by
  obtain ⟨p, q, rfl⟩ := h
  exact ⟨c :: p, q, rfl⟩

theorem notSub_tail {t s : List Nat} {c : Nat} (h : ¬ SubStr t (c :: s)) : ¬ SubStr t s :=
  fun hs => h (sub_cons c hs)

theorem sub_nil_empty {t : List Nat} (h : SubStr t []) : t = [] := by
  obtain ⟨p, q, hp⟩ := h
  have := hp.symm
  simp [List.append_eq_nil] at this
  exact this.2.1

theorem lead_stop {t s2 : List Nat} {c : Nat} (hc : c ∉ t) :
    ∀ s1 : List Nat, (∃ s, s1 ++ c :: s2 = t ++ s) → ∃ r, s1 = t ++ r := by
  induction t with
  | nil => intro s1 _; exact ⟨s1, rfl⟩
  | cons a t ih =>
    rintro s1 ⟨s, hs⟩
    cases s1 with
    | nil =>
      simp only [List.nil_append, List.cons_append] at hs
      injection hs with h1 _
      exact absurd (by rw [h1]; exact List.mem_cons_self a t) hc
    | cons b s1' =>
      simp only [List.cons_append] at hs
      injection hs with h1 h2
      obtain ⟨r, hr⟩ := ih (fun hm => hc (List.mem_cons_of_mem a hm)) s1' ⟨s, h2⟩
      exact ⟨r, by rw [h1, hr]; rfl⟩

theorem sub_split {t s2 : List Nat} {c : Nat} (hc : c ∉ t) :
    ∀ s1 : List Nat, SubStr t (s1 ++ c :: s2) → SubStr t s1 ∨ SubStr t s2 := by
  intro s1
  induction s1 with
  | nil =>
    rintro ⟨p, s, h⟩
    cases p with
    | nil =>
      cases t with
      | nil => exact Or.inl ⟨[], [], rfl⟩
      | cons a t' =>
        simp only [List.nil_append, List.cons_append] at h
        injection h with h1 _
        exact absurd (by rw [h1]; exact List.mem_cons_self a t') hc
    | cons q p' =>
      simp only [List.nil_append, List.cons_append] at h
      injection h with _ h2
      exact Or.inr ⟨p', s, h2⟩
  | cons b s1' ih =>
    rintro ⟨p, s, h⟩
    cases p with
    | nil =>
      cases t with
      | nil => exact Or.inl ⟨[], b :: s1', rfl⟩
      | cons a t' =>
        simp only [List.nil_append, List.cons_append] at h
        injection h with h1 h2
        have hc' : c ∉ t' := fun hm => hc (List.mem_cons_of_mem a hm)
        obtain ⟨r, hr⟩ := lead_stop hc' s1' ⟨s, h2⟩
        exact Or.inl ⟨[], r, by rw [hr, h1]; rfl⟩
    | cons q p' =>
      simp only [List.cons_append] at h
      injection h with _ h2
      rcases ih ⟨p', s, h2⟩ with hL | hR
      · exact Or.inl (sub_cons b hL)
      · exact Or.inr hR

theorem notSub_append_sep {t s1 s2 : List Nat} {c : Nat} (hc : c ∉ t)
    (h1 : ¬ SubStr t s1) (h2 : ¬ SubStr t s2) : ¬ SubStr t (s1 ++ c :: s2) :=
  fun h => (sub_split hc s1 h).elim h1 h2

theorem notSub_cons_sep {t s : List Nat} {c : Nat} (hc : c ∉ t) (h : ¬ SubStr t s) :
    ¬ SubStr t (c :: s) := by
  have h0 : ¬ SubStr t [] := by
    intro hnil
    rw [sub_nil_empty hnil] at h
    exact h ⟨[], s, rfl⟩
  intro hs
  exact @notSub_append_sep t [] s c hc h0 h (by simpa using hs)

theorem hexDigit_spec : ∀ n, n < 16 → isHexB (hexDigitB n) = true ∧ hexValB (hexDigitB n) = n := by
  decide

theorem safe_ne_special {b : Nat} (h : isSafeB b = true) : b ≠ 43 ∧ b ≠ 37 := by
  simp only [isSafeB, isAlphaB, isDigitB, Bool.or_eq_true, Bool.and_eq_true,
    decide_eq_true_eq, beq_iff_eq] at h
  omega

theorem unq_cons_other {b : Nat} (rest : List Nat) (h43 : b ≠ 43) (h37 : b ≠ 37) :
    pyUnquotePlus (b :: rest) = b :: pyUnquotePlus rest := by
  rw [pyUnquotePlus.eq_def]
  split
  · simp_all
  · simp_all
  · rename_i h
    injection h with h1 h2
    exact absurd h1 (by omega)
  · rename_i h
    injection h with h1 h2
    subst h1
    subst h2
    rfl

theorem unq_cons_hex {h1 h2 : Nat} (rest : List Nat) (hh1 : isHexB h1 = true)
    (hh2 : isHexB h2 = true) :
    pyUnquotePlus (37 :: h1 :: h2 :: rest) =
      (hexValB h1 * 16 + hexValB h2) :: pyUnquotePlus rest := by
  simp [pyUnquotePlus, hh1, hh2]

theorem unq_quote_step (b : Nat) (hb : b < 256) (rest : List Nat) :
    pyUnquotePlus (quoteByte b ++ rest) = b :: pyUnquotePlus rest := by
  unfold quoteByte
  split
  · rename_i hsafe
    obtain ⟨h43, h37⟩ := safe_ne_special hsafe
    simpa using unq_cons_other rest h43 h37
  · split
    · rename_i h32
      subst h32
      rfl
    · have hd : b / 16 < 16 := by omega
      have hm : b % 16 < 16 := by omega
      obtain ⟨hh1, hv1⟩ := hexDigit_spec (b / 16) hd
      obtain ⟨hh2, hv2⟩ := hexDigit_spec (b % 16) hm
      have : ([37, hexDigitB (b / 16), hexDigitB (b % 16)] ++ rest) =
          37 :: hexDigitB (b / 16) :: hexDigitB (b % 16) :: rest := rfl
      rw [this, unq_cons_hex rest hh1 hh2, hv1, hv2]
      congr 1
      omega

theorem unq_quote (s : List Nat) (h : ∀ b ∈ s, b < 256) :
    pyUnquotePlus (pyQuotePlus s) = s := by
  induction s with
  | nil => rfl
  | cons b s' ih =>
    have hq : pyQuotePlus (b :: s') = quoteByte b ++ pyQuotePlus s' := by
      simp [pyQuotePlus]
    rw [hq, unq_quote_step b (h b (List.mem_cons_self b s')) (pyQuotePlus s'),
      ih (fun x hx => h x (List.mem_cons_of_mem b hx))]

theorem sep_not_in_quoteByte {b c : Nat} (hc : c = 38 ∨ c = 61) : c ∉ quoteByte b := by
  unfold quoteByte
  split
  · rename_i hsafe
    intro hm
    simp only [List.mem_singleton] at hm
    subst hm
    simp only [isSafeB, isAlphaB, isDigitB, Bool.or_eq_true, Bool.and_eq_true,
      decide_eq_true_eq, beq_iff_eq] at hsafe
    omega
  · split
    · intro hm
      simp only [List.mem_singleton] at hm
      omega
    · intro hm
      simp only [List.mem_cons, List.mem_singleton, List.not_mem_nil, or_false] at hm
      rcases hm with h | h | h
      · omega
      · rw [hexDigitB] at h
        split at h <;> omega
      · rw [hexDigitB] at h
        split at h <;> omega

theorem sep_not_in_quote {c : Nat} (hc : c = 38 ∨ c = 61) (s : List Nat) :
    c ∉ pyQuotePlus s := by
  induction s with
  | nil => simp [pyQuotePlus]
  | cons b s' ih =>
    have hq : pyQuotePlus (b :: s') = quoteByte b ++ pyQuotePlus s' := by
      simp [pyQuotePlus]
    rw [hq]
    intro hm
    rcases List.mem_append.mp hm with h | h
    · exact sep_not_in_quoteByte hc h
    · exact ih h

theorem splitOnByte_ne_nil (c : Nat) : ∀ l : List Nat, splitOnByte c l ≠ [] := by
  intro l
  induction l with
  | nil => simp [splitOnByte]
  | cons b rest ih =>
    simp only [splitOnByte]
    split
    · simp
    · cases hh : splitOnByte c rest with
      | nil => simp
      | cons p ps => simp

theorem splitOnByte_not_mem {c : Nat} : ∀ l : List Nat, c ∉ l → splitOnByte c l = [l] := by
  intro l
  induction l with
  | nil => intro _; rfl
  | cons b rest ih =>
    intro h
    have hb : b ≠ c := fun he => h (he ▸ List.mem_cons_self b rest)
    simp only [splitOnByte, if_neg hb]
    rw [ih (fun hm => h (List.mem_cons_of_mem b hm))]

theorem splitOnByte_append {c : Nat} (R : List Nat) : ∀ p : List Nat, c ∉ p →
    splitOnByte c (p ++ c :: R) = p :: splitOnByte c R := by
  intro p
  induction p with
  | nil => simp [splitOnByte]
  | cons b p' ih =>
    intro h
    have hb : b ≠ c := fun he => h (he ▸ List.mem_cons_self b p')
    simp only [List.cons_append, splitOnByte, if_neg hb, List.append_eq]
    rw [ih (fun hm => h (List.mem_cons_of_mem b hm))]

theorem intercalate_cons_cons {c : Nat} (p : List Nat) (ps : List (List Nat)) (h : ps ≠ []) :
    List.intercalate [c] (p :: ps) = p ++ c :: List.intercalate [c] ps := by
  cases ps with
  | nil => exact absurd rfl h
  | cons q qs =>
    simp [List.intercalate, List.intersperse]

theorem split_intercalate {c : Nat} : ∀ ps : List (List Nat), ps ≠ [] → (∀ p ∈ ps, c ∉ p) →
    splitOnByte c (List.intercalate [c] ps) = ps := by
  intro ps
  induction ps with
  | nil => intro h; exact absurd rfl h
  | cons p ps' ih =>
    intro _ hmem
    cases ps' with
    | nil =>
      have h1 : List.intercalate [c] [p] = p := by simp [List.intercalate]
      rw [h1, splitOnByte_not_mem p (hmem p (List.mem_cons_self p []))]
    | cons q qs =>
      rw [intercalate_cons_cons p (q :: qs) (by simp)]
      rw [splitOnByte_append _ p (hmem p (List.mem_cons_self p (q :: qs)))]
      rw [ih (by simp) fun x hx => hmem x (List.mem_cons_of_mem p hx)]

theorem splitFirst_append {c : Nat} (ys : List Nat) : ∀ xs : List Nat, c ∉ xs →
    splitFirst c (xs ++ c :: ys) = (xs, ys) := by
  intro xs
  induction xs with
  | nil => simp [splitFirst]
  | cons b xs' ih =>
    intro h
    have hb : b ≠ c := fun he => h (he ▸ List.mem_cons_self b xs')
    simp only [List.cons_append, splitFirst, if_neg hb, List.append_eq]
    rw [ih (fun hm => h (List.mem_cons_of_mem b hm))]

theorem map_id_of_mem {α : Type} {f : α → α} : ∀ l : List α, (∀ x ∈ l, f x = x) → l.map f = l := by
  intro l
  induction l with
  | nil => intro _; rfl
  | cons x l' ih =>
    intro h
    rw [List.map_cons, h x (List.mem_cons_self x l'), ih fun y hy => h y (List.mem_cons_of_mem x hy)]

theorem decode_urlencode (m : List (List Nat × List Nat))
    (hm : ∀ kv ∈ m, (∀ b ∈ kv.1, b < 256) ∧ (∀ b ∈ kv.2, b < 256)) :
    decodeQuery (pyUrlencode m) = m := by
  cases m with
  | nil => rfl
  | cons kv m' =>
    have hpieces : ∀ piece ∈ (kv :: m').map (fun x => pyQuotePlus x.1 ++ 61 :: pyQuotePlus x.2),
        (38 : Nat) ∉ piece := by
      intro piece hp
      obtain ⟨x, hx, rfl⟩ := List.mem_map.mp hp
      intro hmem
      rcases List.mem_append.mp hmem with h | h
      · exact sep_not_in_quote (Or.inl rfl) x.1 h
      · rcases List.mem_cons.mp h with h61 | h
        · omega
        · exact sep_not_in_quote (Or.inl rfl) x.2 h
    have hq : pyUrlencode (kv :: m') ≠ [] := by
      unfold pyUrlencode
      cases m' with
      | nil => simp [List.intercalate, List.append_eq_nil]
      | cons q qs =>
        rw [List.map_cons, intercalate_cons_cons _ _ (by simp)]
        simp [List.append_eq_nil]
    unfold decodeQuery
    rw [if_neg hq]
    unfold pyUrlencode
    rw [split_intercalate ((kv :: m').map fun x => pyQuotePlus x.1 ++ 61 :: pyQuotePlus x.2)
      (by simp) hpieces]
    rw [List.map_map]
    apply map_id_of_mem
    rintro ⟨k, v⟩ hx
    obtain ⟨hk, hv⟩ := hm ⟨k, v⟩ hx
    simp only [Function.comp]
    rw [splitFirst_append _ _ (sep_not_in_quote (Or.inr rfl) k)]
    rw [unq_quote k hk, unq_quote v hv]

theorem notSub_addNetloc {t netloc url0 : List Nat} (h47 : 47 ∉ t)
    (hn : ¬ SubStr t netloc) (hu : ¬ SubStr t url0) :
    ¬ SubStr t (pyAddNetloc netloc url0) := by
  unfold pyAddNetloc
  split
  · split
    · exact notSub_cons_sep h47 (notSub_cons_sep h47 (notSub_append_sep h47 hn hu))
    · rename_i hcond
      by_cases hu0 : url0 = []
      · subst hu0
        rw [List.append_nil]
        exact notSub_cons_sep h47 (notSub_cons_sep h47 hn)
      · have htake : url0.take 1 = [47] := by tauto
        cases url0 with
        | nil => exact absurd rfl hu0
        | cons a u' =>
          simp only [List.take_succ_cons, List.take_zero] at htake
          injection htake with ha _
          subst ha
          exact notSub_cons_sep h47
            (notSub_cons_sep h47 (notSub_append_sep h47 hn (notSub_tail hu)))
  · exact hu

theorem notSub_addScheme {t scheme url : List Nat} (h58 : 58 ∉ t)
    (hs : ¬ SubStr t scheme) (hu : ¬ SubStr t url) :
    ¬ SubStr t (pyAddScheme scheme url) := by
  unfold pyAddScheme
  split
  · exact notSub_append_sep h58 hs hu
  · exact hu

theorem notSub_addQuery {t url query : List Nat} (h63 : 63 ∉ t)
    (hu : ¬ SubStr t url) (hq : ¬ SubStr t query) :
    ¬ SubStr t (pyAddQuery url query) := by
  unfold pyAddQuery
  split
  · exact notSub_append_sep h63 hu hq
  · exact hu

theorem notSub_addFrag {t url frag : List Nat} (h35 : 35 ∉ t)
    (hu : ¬ SubStr t url) (hf : ¬ SubStr t frag) :
    ¬ SubStr t (pyAddFrag url frag) := by
  unfold pyAddFrag
  split
  · exact notSub_append_sep h35 hu hf
  · exact hu

theorem notSub_unsplit {t scheme netloc url0 query frag : List Nat}
    (h47 : 47 ∉ t) (h58 : 58 ∉ t) (h63 : 63 ∉ t) (h35 : 35 ∉ t)
    (hs : ¬ SubStr t scheme) (hn : ¬ SubStr t netloc) (hu : ¬ SubStr t url0)
    (hq : ¬ SubStr t query) (hf : ¬ SubStr t frag) :
    ¬ SubStr t (pyUrlunsplit scheme netloc url0 query frag) :=
  notSub_addFrag h35 (notSub_addQuery h63 (notSub_addScheme h58 hs (notSub_addNetloc h47 hn hu)) hq) hf

theorem except_bind_ok {ε α β : Type} (a : α) (f : α → Except ε β) :
    (Except.ok a : Except ε α).bind f = f a := rfl

theorem pyIntList_some {years : List YearV} (h : ∀ y ∈ years, (yearInt y).isSome) :
    ∃ l, pyIntList years = some l ∧ l.length = years.length := by
  induction years with
  | nil => exact ⟨[], rfl, rfl⟩
  | cons y ys ih =>
    obtain ⟨l, hl, hlen⟩ := ih fun x hx => h x (List.mem_cons_of_mem y hx)
    obtain ⟨v, hv⟩ := Option.isSome_iff_exists.mp (h y (List.mem_cons_self y ys))
    refine ⟨v :: l, ?_, by simp [hlen]⟩
    simp [pyIntList, hv, hl]

theorem pyIntList_none {years : List YearV} (h : ∃ y ∈ years, yearInt y = none) :
    pyIntList years = none := by
  induction years with
  | nil => simp at h
  | cons y ys ih =>
    rcases h with ⟨z, hz, hzn⟩
    rcases List.mem_cons.mp hz with rfl | hz'
    · simp [pyIntList, hzn]
    · have hrec := ih ⟨z, hz', hzn⟩
      cases hy : yearInt y <;> simp [pyIntList, hy, hrec]

theorem listBody_ne_assert (entries : List FileEntry) (years : List YearV)
    (fexts : Sum (List Nat) (List (List Nat))) :
    listBody entries years fexts ≠ .error .assertionError := by
  unfold listBody
  cases h : pyIntList years with
  | none => simp
  | some l =>
    by_cases hl : l = [] <;> simp [hl]

theorem make_call_list (branch : List Nat) :
    make_call (bstr ("get")) none (some (bstr ("api.github.com")))
      (some [(bstr ("ref"), branch)]) none (some ghHeaders) (some (bstr ("https")))
      (some (.inr [bstr ("repos"), bstr ("guga31bb"), bstr ("nflfastR-data"),
        bstr ("contents"), bstr ("data")])) none none [] = .ok (listRequestD branch) := rfl

theorem make_call_intro (branch : List Nat) :
    make_call (bstr ("get")) none (some (bstr ("api.github.com"))) none none
      (some ghHeaders) (some (bstr ("https")))
      (some (.inr [bstr ("repos"), bstr ("guga31bb"), bstr ("nflfastR-data"),
        bstr ("branches"), branch])) none none [] = .ok (introRequestD branch) := rfl

theorem gfpa_eq {β : Type} (transport : RequestD → HttpResponse β)
    (loadsL : β → Except PyErr (List FileEntry)) (years : List YearV)
    (branch : List Nat) (fexts : Sum (List Nat) (List (List Nat))) :
    get_file_path_array transport loadsL years branch fexts =
      (if (transport (listRequestD branch)).status_code = 200 then
        (loadsL (transport (listRequestD branch)).content).bind fun entries =>
          listBody entries years fexts
      else .error .assertionError) := by
  unfold get_file_path_array
  rw [make_call_list]
  rfl

theorem gfpa_eq_listBody {β : Type} (transport : RequestD → HttpResponse β)
    (loadsL : β → Except PyErr (List FileEntry)) (years : List YearV)
    (branch : List Nat) (fexts : Sum (List Nat) (List (List Nat)))
    (listing : List FileEntry)
    (hstatus : (transport (listRequestD branch)).status_code = 200)
    (hload : loadsL (transport (listRequestD branch)).content = .ok listing) :
    get_file_path_array transport loadsL years branch fexts = listBody listing years fexts := by
  rw [gfpa_eq, if_pos hstatus, hload]
  rfl

theorem gfpa_assert {β : Type} (transport : RequestD → HttpResponse β)
    (loadsL : β → Except PyErr (List FileEntry)) (years : List YearV)
    (branch : List Nat) (fexts : Sum (List Nat) (List (List Nat)))
    (hstatus : (transport (listRequestD branch)).status_code ≠ 200) :
    get_file_path_array transport loadsL years branch fexts = .error .assertionError := by
  rw [gfpa_eq, if_neg hstatus]

theorem intro_eq {β δ : Type} (transport : RequestD → HttpResponse β)
    (extractDate : β → Except PyErr δ) (branch : List Nat) :
    introduce_repository transport extractDate branch =
      (if (transport (introRequestD branch)).status_code = 200 then
        (extractDate (transport (introRequestD branch)).content).map fun _ => ()
      else .error .assertionError) := by
  unfold introduce_repository
  rw [make_call_intro]
  rfl

theorem intro_assert {β δ : Type} (transport : RequestD → HttpResponse β)
    (extractDate : β → Except PyErr δ) (branch : List Nat)
    (hstatus : (transport (introRequestD branch)).status_code ≠ 200) :
    introduce_repository transport extractDate branch = .error .assertionError := by
  rw [intro_eq, if_neg hstatus]

theorem validName_path {n : List Nat} (h : validName n) : pyPathName n = n ∧ pyPathStr n = n := by
  obtain ⟨hne, h47, hdot, _⟩ := h
  have hcomps : pathComponents n = [n] := by
    unfold pathComponents
    rw [splitOnByte_not_mem n h47]
    simp [hne, hdot]
  constructor
  · unfold pyPathName
    rw [hcomps]
    rfl
  · unfold pyPathStr
    rw [hcomps]
    have htake : ¬ n.take 1 = [47] := by
      cases n with
      | nil => simp
      | cons a m =>
        simp only [List.take_succ_cons, List.take_zero]
        intro hh
        injection hh with ha _
        exact h47 (ha ▸ List.mem_cons_self a m)
    rw [if_neg htake]
    simp [List.intercalate, hne]

theorem entryMatches_iff (exts : List (List Nat)) (years : List YearV) (e : FileEntry)
    (hv : validName e.name) :
    entryMatches exts years e = true ↔
      (pySuffixes e.name = exts ∧ ∃ y ∈ years, SubStr (yearStr y) e.name) := by
  obtain ⟨hname, hstr⟩ := validName_path hv
  unfold entryMatches
  rw [hname, hstr]
  simp only [Bool.and_eq_true, beq_iff_eq, List.any_eq_true, hasSub_iff]

/-- C4: `make_call` raises the invalid-argument `ValueError` if and only if
both `url` and `netloc` are `None`; when `url` is absent and `netloc`
present it issues the request against the URL produced by delegating to
`generate_url` with the matching component arguments (scheme, netloc,
path, query, fragment). -/
theorem make_call_target_selection (method : List Nat)
    (params : Option (List (List Nat × List Nat)))
    (data : Option (Sum (List (List Nat × List Nat)) (List (List Nat))))
    (headers : Option (List (List Nat × List Nat)))
    (scheme : Option (List Nat))
    (path : Option (Sum (List Nat) (List (List Nat))))
    (query : Option (Sum (List Nat) (List (List Nat × List Nat))))
    (fragment : Option (List Nat)) (kwargs : List (List Nat × List Nat)) :
    (∀ url netloc : Option (List Nat),
      make_call method url netloc params data headers scheme path query fragment kwargs =
        .error .valueError ↔ (url = none ∧ netloc = none)) ∧
    (∀ n : List Nat,
      make_call method none (some n) params data headers scheme path query fragment kwargs =
        .ok ⟨method, generate_url n scheme path query fragment,
          params, data, headers, kwargs⟩) := by
  constructor
  · intro url netloc
    cases url <;> cases netloc <;> simp [make_call]
  · intro n
    rfl

/-- C6: with the same non-None `url`, method, params, data, headers and
transport kwargs, the issued request descriptor is identical no matter how
the scheme, netloc, path, query and fragment component arguments differ:
the given url is used verbatim and all URL-component arguments are
ignored. -/
theorem make_call_url_overrides_components (method u : List Nat)
    (params : Option (List (List Nat × List Nat)))
    (data : Option (Sum (List (List Nat × List Nat)) (List (List Nat))))
    (headers : Option (List (List Nat × List Nat)))
    (kwargs : List (List Nat × List Nat))
    (netloc₁ netloc₂ scheme₁ scheme₂ : Option (List Nat))
    (path₁ path₂ : Option (Sum (List Nat) (List (List Nat))))
    (query₁ query₂ : Option (Sum (List Nat) (List (List Nat × List Nat))))
    (fragment₁ fragment₂ : Option (List Nat)) :
    make_call method (some u) netloc₁ params data headers scheme₁ path₁ query₁ fragment₁ kwargs =
      make_call method (some u) netloc₂ params data headers scheme₂ path₂ query₂ fragment₂ kwargs ∧
    make_call method (some u) netloc₁ params data headers scheme₁ path₁ query₁ fragment₁ kwargs =
      .ok ⟨method, u, params, data, headers, kwargs⟩ := by
  cases netloc₁ <;> cases netloc₂ <;> exact ⟨rfl, rfl⟩

/-- C9: `prepare_cross_year_data` on an empty list of file URLs raises the
pandas `ValueError` (concatenating zero tables) instead of returning an
empty table, even though an empty URL list is a valid non-error output of
`get_file_path_array`. -/
theorem prepare_cross_year_data_empty_fails {α : Type}
    (read_parquet : List Nat → List (Nat × α)) :
    prepare_cross_year_data read_parquet [] = .error .valueError ∧
    get_file_path_array (demoTransport 200) (demoLoads []) [.inl 2019]
      (bstr ("master")) (.inl (bstr (".parquet"))) = .ok [] :=
  ⟨rfl, rfl⟩

/-- C3: for every non-empty file list, `prepare_cross_year_data` succeeds
with a table whose rows are the loaded tables' rows concatenated in input
order (hence the row count is the sum of the per-file row counts, with
every row of an earlier file before every row of a later file), and whose
index is reset to `0, 1, 2, ...`. -/
theorem prepare_cross_year_data_concat {α : Type}
    (read_parquet : List Nat → List (Nat × α))
    (file_paths : List (List Nat)) (h : file_paths ≠ []) :
    ∃ df, prepare_cross_year_data read_parquet file_paths = .ok df ∧
      df.map Prod.snd = (file_paths.map fun p => (read_parquet p).map Prod.snd).flatten ∧
      df.length = (file_paths.map fun p => (read_parquet p).length).sum ∧
      df.map Prod.fst = List.range df.length := by
  cases file_paths with
  | nil => exact absurd rfl h
  | cons p ps =>
    refine ⟨_, rfl, ?_, ?_, ?_⟩
    · rw [List.enum_map_snd, List.map_map]
      rfl
    · rw [List.enum_length, List.length_flatten, List.map_map, List.map_map]
      simp only [Function.comp_def, List.length_map]
    · rw [List.enum_map_fst, List.enum_length]

/-- C3 witness: two files with 100 and 250 rows give 350 rows. -/
theorem prepare_cross_year_data_concat_witness :
    ([bstr ("a"), bstr ("b")] : List (List Nat)) ≠ [] ∧
    ∃ df, prepare_cross_year_data
        (fun p => List.enum (List.replicate (if p = bstr ("a") then 100 else 250) (0 : Nat)))
        [bstr ("a"), bstr ("b")] = .ok df ∧
      df.map Prod.snd = (([bstr ("a"), bstr ("b")] : List (List Nat)).map fun p =>
        (List.enum (List.replicate (if p = bstr ("a") then 100 else 250) (0 : Nat))).map
          Prod.snd).flatten ∧
      df.length = (([bstr ("a"), bstr ("b")] : List (List Nat)).map fun p =>
        (List.enum (List.replicate (if p = bstr ("a") then 100 else 250) (0 : Nat))).length).sum ∧
      df.map Prod.fst = List.range df.length :=
  ⟨by decide, prepare_cross_year_data_concat
    (fun p => List.enum (List.replicate (if p = bstr ("a") then 100 else 250) (0 : Nat)))
    [bstr ("a"), bstr ("b")] (by decide)⟩

/-- C5: both `introduce_repository` and `get_file_path_array` fail with
the status assertion (`AssertionError`) if and only if the HTTP status of
their GitHub API call is not 200; on status 200 execution continues past
the check into the response-processing chain with no recovery branch
(its errors propagate unchanged to the caller). -/
theorem status_assert_characterization {β δ : Type}
    (transport : RequestD → HttpResponse β) (extractDate : β → Except PyErr δ)
    (loadsL : β → Except PyErr (List FileEntry)) (branch : List Nat)
    (years : List YearV) (fexts : Sum (List Nat) (List (List Nat)))
    (hE : ∀ b, extractDate b ≠ .error .assertionError)
    (hL : ∀ b, loadsL b ≠ .error .assertionError) :
    (introduce_repository transport extractDate branch = .error .assertionError ↔
      (transport (introRequestD branch)).status_code ≠ 200) ∧
    ((transport (introRequestD branch)).status_code = 200 →
      introduce_repository transport extractDate branch =
        (extractDate (transport (introRequestD branch)).content).map fun _ => ()) ∧
    (get_file_path_array transport loadsL years branch fexts = .error .assertionError ↔
      (transport (listRequestD branch)).status_code ≠ 200) ∧
    ((transport (listRequestD branch)).status_code = 200 →
      get_file_path_array transport loadsL years branch fexts =
        (loadsL (transport (listRequestD branch)).content).bind fun entries =>
          listBody entries years fexts) := by
  refine ⟨⟨?_, fun h => intro_assert transport extractDate branch h⟩,
    fun h => by rw [intro_eq, if_pos h],
    ⟨?_, fun h => gfpa_assert transport loadsL years branch fexts h⟩,
    fun h => by rw [gfpa_eq, if_pos h]⟩
  · intro herr hstat
    rw [intro_eq, if_pos hstat] at herr
    cases hx : extractDate (transport (introRequestD branch)).content with
    | error e =>
      rw [hx] at herr
      simp only [Except.map] at herr
      injection herr with he
      rw [he] at hx
      exact hE _ hx
    | ok v =>
      rw [hx] at herr
      simp [Except.map] at herr
  · intro herr hstat
    rw [gfpa_eq, if_pos hstat] at herr
    cases hx : loadsL (transport (listRequestD branch)).content with
    | error e =>
      rw [hx] at herr
      simp only [Except.bind] at herr
      injection herr with he
      rw [he] at hx
      exact hL _ hx
    | ok entries =>
      rw [hx, except_bind_ok] at herr
      exact listBody_ne_assert entries years fexts herr

/-- C5 witness: a 404 transport makes both functions fail the assertion. -/
theorem status_assert_characterization_witness :
    (∀ b : Unit, demoExtract b ≠ .error .assertionError) ∧
    (∀ b : Unit, demoLoads [] b ≠ .error .assertionError) ∧
    ((introduce_repository (demoTransport 404) demoExtract (bstr ("master")) =
        .error .assertionError ↔
      ((demoTransport 404) (introRequestD (bstr ("master")))).status_code ≠ 200) ∧
    (((demoTransport 404) (introRequestD (bstr ("master")))).status_code = 200 →
      introduce_repository (demoTransport 404) demoExtract (bstr ("master")) =
        (demoExtract ((demoTransport 404) (introRequestD (bstr ("master")))).content).map
          fun _ => ()) ∧
    (get_file_path_array (demoTransport 404) (demoLoads []) [.inl 2019] (bstr ("master"))
        (.inl (bstr (".parquet"))) = .error .assertionError ↔
      ((demoTransport 404) (listRequestD (bstr ("master")))).status_code ≠ 200) ∧
    (((demoTransport 404) (listRequestD (bstr ("master")))).status_code = 200 →
      get_file_path_array (demoTransport 404) (demoLoads []) [.inl 2019] (bstr ("master"))
        (.inl (bstr (".parquet"))) =
        (demoLoads [] ((demoTransport 404) (listRequestD (bstr ("master")))).content).bind
          fun entries => listBody entries [.inl 2019] (.inl (bstr (".parquet"))))) := by
  have p1 : ∀ b : Unit, demoExtract b ≠ .error .assertionError := by
    intro b
    simp [demoExtract]
  have p2 : ∀ b : Unit, demoLoads [] b ≠ .error .assertionError := by
    intro b
    simp [demoLoads]
  exact ⟨p1, p2, status_assert_characterization (demoTransport 404) demoExtract (demoLoads [])
    (bstr ("master")) [.inl 2019] (.inl (bstr (".parquet"))) p1 p2⟩

/-- C2: with a successful listing call, an empty `years` sequence makes
`get_file_path_array` fail (the `ValueError` of `min()` on an empty
sequence propagates), while every non-empty `years` sequence of
`int()`-convertible values that matches no listing entry succeeds with the
empty result. -/
theorem gfpa_empty_years_vs_no_match {β : Type}
    (transport : RequestD → HttpResponse β)
    (loadsL : β → Except PyErr (List FileEntry)) (branch : List Nat)
    (fexts : Sum (List Nat) (List (List Nat))) (listing : List FileEntry)
    (hstatus : (transport (listRequestD branch)).status_code = 200)
    (hload : loadsL (transport (listRequestD branch)).content = .ok listing) :
    (get_file_path_array transport loadsL [] branch fexts = .error .valueError) ∧
    (∀ years : List YearV, years ≠ [] → (∀ y ∈ years, (yearInt y).isSome) →
      (∀ e ∈ listing, entryMatches (normExtList fexts) years e = false) →
      get_file_path_array transport loadsL years branch fexts = .ok []) := by
  constructor
  · rw [gfpa_eq_listBody transport loadsL [] branch fexts listing hstatus hload]
    rfl
  · intro years hne hsome hnomatch
    rw [gfpa_eq_listBody transport loadsL years branch fexts listing hstatus hload]
    obtain ⟨l, hl, hlen⟩ := pyIntList_some hsome
    have hlne : ¬ l = [] := by
      intro h0
      rw [h0] at hlen
      exact hne (List.length_eq_zero.mp hlen.symm)
    have hfil : List.filter (entryMatches (normExtList fexts) years) listing = [] :=
      List.filter_eq_nil_iff.mpr fun a ha => by rw [hnomatch a ha]; simp
    simp only [listBody, hl, if_neg hlne, hfil]
    rfl

/-- C2 witness: the demo listing, years `[2030]` (no file mentions 2030). -/
theorem gfpa_empty_years_vs_no_match_witness :
    ((demoTransport 200) (listRequestD (bstr ("master")))).status_code = 200 ∧
    demoLoads demoListing ((demoTransport 200) (listRequestD (bstr ("master")))).content =
      .ok demoListing ∧
    ((get_file_path_array (demoTransport 200) (demoLoads demoListing) [] (bstr ("master"))
        (.inl (bstr (".parquet"))) = .error .valueError) ∧
    (∀ years : List YearV, years ≠ [] → (∀ y ∈ years, (yearInt y).isSome) →
      (∀ e ∈ demoListing,
        entryMatches (normExtList (.inl (bstr (".parquet")))) years e = false) →
      get_file_path_array (demoTransport 200) (demoLoads demoListing) years (bstr ("master"))
        (.inl (bstr (".parquet"))) = .ok [])) :=
  ⟨rfl, rfl, gfpa_empty_years_vs_no_match (demoTransport 200) (demoLoads demoListing)
    (bstr ("master")) (.inl (bstr (".parquet"))) demoListing rfl rfl⟩

/-- C10: if any element of `years` has a string form `int()` cannot parse,
`get_file_path_array` raises `ValueError` at the min/max logging step,
whatever the listing contains (even when filtering produced matches). -/
theorem gfpa_unparseable_year {β : Type}
    (transport : RequestD → HttpResponse β)
    (loadsL : β → Except PyErr (List FileEntry)) (years : List YearV)
    (branch : List Nat) (fexts : Sum (List Nat) (List (List Nat)))
    (listing : List FileEntry)
    (hstatus : (transport (listRequestD branch)).status_code = 200)
    (hload : loadsL (transport (listRequestD branch)).content = .ok listing)
    (hbad : ∃ y ∈ years, yearInt y = none) :
    get_file_path_array transport loadsL years branch fexts = .error .valueError := by
  rw [gfpa_eq_listBody transport loadsL years branch fexts listing hstatus hload]
  unfold listBody
  rw [pyIntList_none hbad]

/-- C10 witness: year string "20x19" matches a file name but cannot be
converted by `int()`. -/
theorem gfpa_unparseable_year_witness :
    ((demoTransport 200) (listRequestD (bstr ("master")))).status_code = 200 ∧
    demoLoads [⟨bstr ("data_20x19.parquet"), bstr ("u")⟩]
      ((demoTransport 200) (listRequestD (bstr ("master")))).content =
      .ok [⟨bstr ("data_20x19.parquet"), bstr ("u")⟩] ∧
    (∃ y ∈ ([.inr (bstr ("20x19"))] : List YearV), yearInt y = none) ∧
    get_file_path_array (demoTransport 200) (demoLoads [⟨bstr ("data_20x19.parquet"), bstr ("u")⟩])
      [.inr (bstr ("20x19"))] (bstr ("master")) (.inl (bstr (".parquet"))) =
      .error .valueError :=
  ⟨rfl, rfl, ⟨.inr (bstr ("20x19")), List.mem_cons_self _ _, rfl⟩,
    gfpa_unparseable_year (demoTransport 200)
      (demoLoads [⟨bstr ("data_20x19.parquet"), bstr ("u")⟩])
      [.inr (bstr ("20x19"))] (bstr ("master")) (.inl (bstr (".parquet")))
      [⟨bstr ("data_20x19.parquet"), bstr ("u")⟩] rfl rfl
      ⟨.inr (bstr ("20x19")), List.mem_cons_self _ _, rfl⟩⟩

/-- C1: whenever `get_file_path_array` succeeds on a listing of distinct
well-formed file names, an entry's download URL is in the result if and
only if (a) the entry name's suffix chain equals the normalised extension
filter exactly (so composite extensions or a different order never match)
and (b) the string form of at least one requested year occurs as a
substring anywhere in the entry name. -/
theorem gfpa_filter_iff {β : Type} (transport : RequestD → HttpResponse β)
    (loadsL : β → Except PyErr (List FileEntry)) (years : List YearV)
    (branch : List Nat) (fexts : Sum (List Nat) (List (List Nat)))
    (listing : List FileEntry) (urls : List (List Nat))
    (hstatus : (transport (listRequestD branch)).status_code = 200)
    (hload : loadsL (transport (listRequestD branch)).content = .ok listing)
    (hok : get_file_path_array transport loadsL years branch fexts = .ok urls)
    (hvalid : ∀ e ∈ listing, validName e.name)
    (hinj : (listing.map FileEntry.download_url).Nodup) :
    ∀ e ∈ listing, (e.download_url ∈ urls ↔
      (pySuffixes e.name = normExtList fexts ∧
        ∃ y ∈ years, SubStr (yearStr y) e.name)) := by
  intro e he
  rw [gfpa_eq_listBody transport loadsL years branch fexts listing hstatus hload] at hok
  cases hl : pyIntList years with
  | none =>
    simp only [listBody, hl] at hok
    exact Except.noConfusion hok
  | some l =>
    simp only [listBody, hl] at hok
    by_cases hl0 : l = []
    · rw [if_pos hl0] at hok
      exact Except.noConfusion hok
    · rw [if_neg hl0] at hok
      injection hok with hurls
      subst hurls
      rw [← entryMatches_iff (normExtList fexts) years e (hvalid e he)]
      constructor
      · intro hmem
        obtain ⟨e', he'mem, hfe⟩ := List.mem_map.mp hmem
        obtain ⟨he'list, hp⟩ := List.mem_filter.mp he'mem
        have hee : e' = e := List.inj_on_of_nodup_map hinj he'list he hfe
        exact hee ▸ hp
      · intro hp
        exact List.mem_map.mpr ⟨e, List.mem_filter.mpr ⟨he, hp⟩, rfl⟩

/-- C1 witness: extension filter `".csv"` and years `[2019]` against the
demo listing select exactly the plain 2019 csv file. -/
theorem gfpa_filter_iff_witness :
    ((demoTransport 200) (listRequestD (bstr ("master")))).status_code = 200 ∧
    demoLoads demoListing ((demoTransport 200) (listRequestD (bstr ("master")))).content =
      .ok demoListing ∧
    get_file_path_array (demoTransport 200) (demoLoads demoListing) [.inl 2019]
      (bstr ("master")) (.inl (bstr (".csv"))) =
      .ok [bstr ("https://raw.test/play_by_play_2019.csv")] ∧
    (∀ e ∈ demoListing, validName e.name) ∧
    (demoListing.map FileEntry.download_url).Nodup ∧
    (∀ e ∈ demoListing,
      (e.download_url ∈ [bstr ("https://raw.test/play_by_play_2019.csv")] ↔
        (pySuffixes e.name = normExtList (.inl (bstr (".csv"))) ∧
          ∃ y ∈ ([.inl 2019] : List YearV), SubStr (yearStr y) e.name))) :=
  ⟨rfl, rfl, rfl, by decide, by decide,
    gfpa_filter_iff (demoTransport 200) (demoLoads demoListing) [.inl 2019]
      (bstr ("master")) (.inl (bstr (".csv"))) demoListing
      [bstr ("https://raw.test/play_by_play_2019.csv")] rfl rfl rfl (by decide) (by decide)⟩

/-- C7: absent (None) components of `generate_url` render as the empty
string, and whenever no rendered component contains the literal `"None"`,
the output URL does not contain `"None"` anywhere — in particular never in
place of an absent component. -/
theorem generate_url_no_none (netloc : List Nat) (scheme : Option (List Nat))
    (path : Option (Sum (List Nat) (List (List Nat))))
    (query : Option (Sum (List Nat) (List (List Nat × List Nat))))
    (fragment : Option (List Nat))
    (hs : ¬ SubStr noneStr (orEmptyB scheme)) (hn : ¬ SubStr noneStr netloc)
    (hp : ¬ SubStr noneStr (renderPath path)) (hq : ¬ SubStr noneStr (renderQuery query))
    (hf : ¬ SubStr noneStr (orEmptyB fragment)) :
    (orEmptyB (none : Option (List Nat)) = [] ∧
      renderPath none = [] ∧ renderQuery none = []) ∧
    ¬ SubStr noneStr (generate_url netloc scheme path query fragment) := by
  refine ⟨⟨rfl, rfl, rfl⟩, ?_⟩
  have h47 : (47 : Nat) ∉ noneStr := by decide
  have h58 : (58 : Nat) ∉ noneStr := by decide
  have h63 : (63 : Nat) ∉ noneStr := by decide
  have h35 : (35 : Nat) ∉ noneStr := by decide
  unfold generate_url pyUrlunparse
  rw [if_neg (by simp : ¬(([] : List Nat) ≠ []))]
  exact notSub_unsplit h47 h58 h63 h35 hs hn hp hq hf

/-- C7 witness: a URL with present scheme/netloc/path/query and an absent
fragment contains no `"None"`. -/
theorem generate_url_no_none_witness :
    (¬ SubStr noneStr (orEmptyB (some (bstr ("https"))))) ∧
    (¬ SubStr noneStr (bstr ("api.github.com"))) ∧
    (¬ SubStr noneStr (renderPath (some (.inr [bstr ("repos"), bstr ("guga31bb")])))) ∧
    (¬ SubStr noneStr (renderQuery (some (.inr [(bstr ("ref"), bstr ("master"))])))) ∧
    (¬ SubStr noneStr (orEmptyB (none : Option (List Nat)))) ∧
    ((orEmptyB (none : Option (List Nat)) = [] ∧
      renderPath none = [] ∧ renderQuery none = []) ∧
    ¬ SubStr noneStr (generate_url (bstr ("api.github.com")) (some (bstr ("https")))
      (some (.inr [bstr ("repos"), bstr ("guga31bb")]))
      (some (.inr [(bstr ("ref"), bstr ("master"))])) none)) := by
  have d1 : ¬ SubStr noneStr (orEmptyB (some (bstr ("https")))) :=
    fun h => absurd ((hasSub_iff noneStr _).mpr h) (by decide)
  have d2 : ¬ SubStr noneStr (bstr ("api.github.com")) :=
    fun h => absurd ((hasSub_iff noneStr _).mpr h) (by decide)
  have d3 : ¬ SubStr noneStr (renderPath (some (.inr [bstr ("repos"), bstr ("guga31bb")]))) :=
    fun h => absurd ((hasSub_iff noneStr _).mpr h) (by decide)
  have d4 : ¬ SubStr noneStr (renderQuery (some (.inr [(bstr ("ref"), bstr ("master"))]))) :=
    fun h => absurd ((hasSub_iff noneStr _).mpr h) (by decide)
  have d5 : ¬ SubStr noneStr (orEmptyB (none : Option (List Nat))) :=
    fun h => absurd ((hasSub_iff noneStr _).mpr h) (by decide)
  exact ⟨d1, d2, d3, d4, d5, generate_url_no_none (bstr ("api.github.com"))
    (some (bstr ("https"))) (some (.inr [bstr ("repos"), bstr ("guga31bb")]))
    (some (.inr [(bstr ("ref"), bstr ("master"))])) none d1 d2 d3 d4 d5⟩

/-- C8: for a mapping query, the query string `generate_url` embeds is
exactly `urlencode` of the mapping, and URL-decoding that string back into
key/value pairs reproduces the original mapping (encode/decode round
trip). -/
theorem generate_url_query_round_trip (m : List (List Nat × List Nat))
    (hm : ∀ kv ∈ m, (∀ b ∈ kv.1, b < 256) ∧ (∀ b ∈ kv.2, b < 256)) :
    decodeQuery (pyUrlencode m) = m ∧
    ∀ (netloc : List Nat) (scheme : Option (List Nat))
      (path : Option (Sum (List Nat) (List (List Nat)))) (fragment : Option (List Nat)),
      generate_url netloc scheme path (some (.inr m)) fragment =
        pyUrlunparse (orEmptyB scheme) netloc (renderPath path) [] (pyUrlencode m)
          (orEmptyB fragment) :=
  ⟨decode_urlencode m hm, fun _ _ _ _ => rfl⟩

/-- C8 witness: a mapping with a space, an ampersand and an equals sign in
its values round-trips. -/
theorem generate_url_query_round_trip_witness :
    (∀ kv ∈ ([(bstr ("ref"), bstr ("master")), (bstr ("a b"), bstr ("c&d=e"))] :
        List (List Nat × List Nat)),
      (∀ b ∈ kv.1, b < 256) ∧ (∀ b ∈ kv.2, b < 256)) ∧
    (decodeQuery (pyUrlencode [(bstr ("ref"), bstr ("master")), (bstr ("a b"), bstr ("c&d=e"))]) =
      [(bstr ("ref"), bstr ("master")), (bstr ("a b"), bstr ("c&d=e"))] ∧
    ∀ (netloc : List Nat) (scheme : Option (List Nat))
      (path : Option (Sum (List Nat) (List (List Nat)))) (fragment : Option (List Nat)),
      generate_url netloc scheme path
          (some (.inr [(bstr ("ref"), bstr ("master")), (bstr ("a b"), bstr ("c&d=e"))]))
          fragment =
        pyUrlunparse (orEmptyB scheme) netloc (renderPath path) []
          (pyUrlencode [(bstr ("ref"), bstr ("master")), (bstr ("a b"), bstr ("c&d=e"))])
          (orEmptyB fragment)) :=
  ⟨by decide, generate_url_query_round_trip
    [(bstr ("ref"), bstr ("master")), (bstr ("a b"), bstr ("c&d=e"))] (by decide)⟩

/-! Concrete sanity checks evaluating the embedded functions. -/

example : generate_url (bstr ("api.github.com")) (some (bstr ("https")))
    (some (.inr [bstr ("repos"), bstr ("x")])) none none =
    bstr ("https://api.github.com/repos/x") := by decide

example : generate_url (bstr ("h.com")) (some (bstr ("https"))) none
    (some (.inr [(bstr ("ref"), bstr ("master"))])) (some (bstr ("frag"))) =
    bstr ("https://h.com?ref=master#frag") := by decide

example : decodeQuery (pyUrlencode [(bstr ("a b"), bstr ("c&d=e"))]) =
    [(bstr ("a b"), bstr ("c&d=e"))] := by decide

example : pySuffixes (bstr ("play_by_play_2019.csv")) = [bstr (".csv")] := by decide

example : pySuffixes (bstr ("data_2020.csv.gz")) = [bstr (".csv"), bstr (".gz")] := by decide

example : pySuffixes (bstr (".bashrc")) = [] := by decide

example : pyIntOfStr (bstr (" 2019 ")) = some 2019 := by decide

example : pyIntOfStr (bstr ("20x19")) = none := by decide

example : pyIntOfStr (bstr ("-1_2")) = some (-12) := by decide

example : yearStr (.inl 2019) = bstr ("2019") := by decide

example : get_file_path_array (demoTransport 200) (demoLoads demoListing)
    [.inl 2020] (bstr ("master")) (.inl (bstr (".parquet"))) =
    .ok [bstr ("https://raw.test/pbp_2020.parquet")] := rfl

example : get_file_path_array (demoTransport 404) (demoLoads demoListing)
    [.inl 2020] (bstr ("master")) (.inl (bstr (".parquet"))) =
    .error .assertionError := rfl

example : prepare_cross_year_data (fun _ => [(0, 7)]) [bstr ("a"), bstr ("b")] =
    .ok [(0, 7), (1, 7)] := rfl
